import Mathlib

/-!
Verification of `scripts/replace-project-name.py`, the one-shot template
rewriter: it walks the project tree, applies per-extension literal string
substitutions, and generates auxiliary artifacts (`.env.template`, a rewritten
`lib/config.ts` with a write-once backup, and `setup-project.sh`).

The embedding is shallow: Python strings become Lean `String`/`List Char`,
the file system becomes an association list from path strings to contents
(plus a directory tree for the `os.walk` pruning behaviour), and exceptions
become `Except` values passed in explicitly.
-/

/-- Python `s.replace(old, new)` on character lists, with an explicit fuel
argument (the fuel is always instantiated with `s.length`, which suffices
because every step consumes at least one character of `s`).  The scan moves
left to right, replacing non-overlapping occurrences, and the guard
`!old.isEmpty` keeps the empty pattern out of this loop (Python treats it
specially, see `pyReplace`). -/
def pyReplaceFuel (old new : List Char) : Nat → List Char → List Char
  | 0, s => s
  | _ + 1, [] => []
  | fuel + 1, c :: rest =>
    if old.isPrefixOf (c :: rest) && !old.isEmpty then
      new ++ pyReplaceFuel old new fuel ((c :: rest).drop old.length)
    else
      c :: pyReplaceFuel old new fuel rest

/-- Python `s.replace(old, new)` (the `content.replace(old, new)` call on
line 39 of the script).  For a non-empty `old` it replaces the leftmost
non-overlapping occurrences; for the empty `old`, Python inserts `new`
before every character and at the end, which the first branch reproduces. -/
def pyReplace (s old new : String) : String :=
  if old.data.isEmpty then
    String.mk (new.data ++ (s.data.map (fun c => c :: new.data)).flatten)
  else
    String.mk (pyReplaceFuel old.data new.data s.data.length s.data)

/-- The replacement loop of `replace_in_file` (lines 38-39): each `(old, new)`
pair of the substitution map is applied in map order, the output of one
replacement feeding the next. -/
def applyMap (m : List (String × String)) (content : String) : String :=
  m.foldl (fun acc kv => pyReplace acc kv.1 kv.2) content

/-- Python's `pattern in path_str` substring containment test, on character
lists: true iff `pat` occurs as a contiguous run inside the second list. -/
def containsSub (pat : List Char) : List Char → Bool
  | [] => pat.isEmpty
  | c :: rest => pat.isPrefixOf (c :: rest) || containsSub pat rest

/-- The `SKIP_PATTERNS` list of the script (lines 13-21), in source order. -/
def SKIP_PATTERNS : List String :=
  ["node_modules", ".git", ".next", "dist", "build", "*.original",
   "replace-project-name.py"]

/-- The loop body of `should_skip` (lines 26-29), parameterised by the
pattern list: return `true` as soon as one pattern is a substring of the
path string, `false` when the list is exhausted. -/
def should_skipWith (patterns : List String) (path : String) : Bool :=
  match patterns with
  | [] => false
  | pat :: rest =>
    if containsSub pat.data path.data then true else should_skipWith rest path

/-- `should_skip(path)` (lines 23-29): substring-match the path string
against `SKIP_PATTERNS`. -/
def should_skip (path : String) : Bool := should_skipWith SKIP_PATTERNS path

/-- Python `pathlib.Path(p).suffix`: take the final path component (after the
last `/`), find its last dot at index `i`, and return the extension `name[i:]`
when `0 < i < len(name) - 1`, otherwise the empty string. -/
def pySuffix (p : String) : String :=
  let name := (p.data.reverse.takeWhile (fun c => c ≠ '/')).reverse
  let rev := name.reverse
  let after := rev.takeWhile (fun c => c ≠ '.')
  if after.length < rev.length ∧ 0 < after.length ∧ after.length + 1 < rev.length
  then String.mk ('.' :: after.reverse)
  else ""

/-- `file_path.suffix.lower()` (line 258). -/
def extOf (p : String) : String := String.mk ((pySuffix p).data.map Char.toLower)

/-- The general `replacements` dictionary (lines 214-222), in insertion
order (Python dictionaries iterate in insertion order). -/
def replacements : List (String × String) :=
  [("nda-analyzer", "$\x7bPROJECT_NAME\x7d"),
   ("/nda-analyzer", "/$\x7bPROJECT_NAME\x7d"),
   ("nda-analyzer/", "$\x7bPROJECT_NAME\x7d/"),
   ("'nda-analyzer'", "'$\x7bPROJECT_NAME\x7d'"),
   ("\"nda-analyzer\"", "\"$\x7bPROJECT_NAME\x7d\""),
   ("NDA Analyzer", "$\x7bPROJECT_DISPLAY_NAME\x7d"),
   ("nda_analyzer", "$\x7bPROJECT_NAME_UNDERSCORE\x7d")]

/-- The `.json` map of `file_handlers` (lines 230-232). -/
def json_replacements : List (String × String) :=
  [("\"nda-analyzer\"", "\"vvg-template\"")]

/-- The `.md` map of `file_handlers` (lines 236-239). -/
def md_replacements : List (String × String) :=
  [("nda-analyzer", "\x7bPROJECT_NAME\x7d"),
   ("NDA Analyzer", "\x7bPROJECT_DISPLAY_NAME\x7d")]

/-- The three-entry sub-map of `replacements` singled out by the refinement
claim: the bare-name, display-name and underscore-name rules, in their
relative order of the source dictionary.  (Stated from the claim, to be
compared with `replacements`.) -/
def replacements_core : List (String × String) :=
  [("nda-analyzer", "$\x7bPROJECT_NAME\x7d"),
   ("NDA Analyzer", "$\x7bPROJECT_DISPLAY_NAME\x7d"),
   ("nda_analyzer", "$\x7bPROJECT_NAME_UNDERSCORE\x7d")]

/-- The `file_handlers` extension dispatch table (lines 225-241), in
insertion order. -/
def file_handlers : List (String × List (String × String)) :=
  [(".ts", replacements), (".tsx", replacements), (".js", replacements),
   (".jsx", replacements), (".json", json_replacements), (".yml", replacements),
   (".yaml", replacements), (".sh", replacements), (".md", md_replacements),
   (".conf", replacements)]

/-- `ext in file_handlers` / `file_handlers[ext]` (lines 260-261). -/
def lookupHandler (e : String) : Option (List (String × String)) :=
  (file_handlers.find? (fun kv => kv.1 == e)).map (fun kv => kv.2)

/-- The diagnostic line printed by the `except` handler of `replace_in_file`
(line 47). -/
def errLine (path msg : String) : String :=
  "  ✗ Error updating " ++ path ++ ": " ++ msg

/-- The report line printed when a file was rewritten (line 44). -/
def okLine (path : String) : String := "  ✓ Updated: " ++ path

/-- `replace_in_file(file_path, replacements)` (lines 31-48).  The outcomes
of the two I/O actions inside the `try` block are passed in explicitly:
`readRes` is the result of reading and decoding the file, `writeRes` the
result of writing it back.  The function returns whether the file counts as
updated, the content successfully written back (if any), and the lines
printed.  Any caught exception yields `false` with a diagnostic naming the
path and the message; an unchanged content falls through to `return False`
with no output and no write. -/
def replace_in_file (path : String) (readRes : Except String String)
    (writeRes : Except String Unit) (m : List (String × String)) :
    Bool × Option String × List String :=
  match readRes with
  | .error e => (false, none, [errLine path e])
  | .ok content =>
    let newContent := applyMap m content
    if newContent = content then (false, none, [])
    else
      match writeRes with
      | .error e => (false, none, [errLine path e])
      | .ok _ => (true, some newContent, [okLine path])

/-- The per-file body of the walk loop in `main` (lines 251-262), for a file
whose read and write both succeed: skip the path if `should_skip` fires,
otherwise dispatch on the lowercased suffix and run `replace_in_file`.
Returns the file's content after the iteration and whether the updated-file
counter was incremented for it. -/
def processFile (p c : String) : String × Bool :=
  if should_skip p then (c, false)
  else
    match lookupHandler (extOf p) with
    | none => (c, false)
    | some m =>
      let r := replace_in_file p (Except.ok c) (Except.ok ()) m
      (r.2.1.getD c, r.1)

/-- A flat model of the file system: an association list from (normalised,
`template_dir`-relative) path strings to file contents. -/
abbrev FileStore := List (String × String)

/-- Reading a file from the store: content of the first entry at `p`. -/
def lookupFile (s : FileStore) (p : String) : Option String :=
  (s.find? (fun e => e.1 == p)).map (fun e => e.2)

/-- Writing a file: overwrite the entry at `p` if present, else create it. -/
def writeFile : FileStore → String → String → FileStore
  | [], p, c => [(p, c)]
  | (q, d) :: rest, p, c =>
    if q == p then (p, c) :: rest else (q, d) :: writeFile rest p c

/-- The walk-and-substitute phase of `main` (lines 247-262) linearised over
the store: every store entry passes through `processFile`, and the updated
entries are counted (`updated_count`).  Files inside the directories that
`os.walk` prunes are never reached by the real loop; in this flat model they
are reached but left untouched, because each such path contains the pruned
directory name as a substring and is therefore caught by `should_skip`
(see the walk-pruning theorems below for the tree-level statement). -/
def processAll : FileStore → FileStore × Nat
  | [] => ([], 0)
  | (p, c) :: rest =>
    let pc := processFile p c
    let r := processAll rest
    ((p, pc.1) :: r.1, (if pc.2 then 1 else 0) + r.2)

/-- The `.env.template` text written by `create_env_template` (lines 52-89).
Written here as a concatenation of its lines. -/
def env_template : String :=
  "# Project Configuration\n" ++
  "PROJECT_NAME=your-project-name\n" ++
  "APP_BASE_PATH=/your-project-name\n" ++
  "\n" ++
  "# Database\n" ++
  "DATABASE_URL=\n" ++
  "\n" ++
  "# AWS S3 Configuration (if using S3 storage)\n" ++
  "AWS_REGION=\n" ++
  "AWS_ACCESS_KEY_ID=\n" ++
  "AWS_SECRET_ACCESS_KEY=\n" ++
  "S3_BUCKET_NAME=\n" ++
  "S3_FOLDER_PREFIX=$\x7bPROJECT_NAME\x7d/\n" ++
  "\n" ++
  "# Authentication\n" ++
  "NEXTAUTH_URL=https://your-domain.com/$\x7bPROJECT_NAME\x7d\n" ++
  "NEXTAUTH_SECRET=\n" ++
  "\n" ++
  "# Azure AD (if using Azure authentication)\n" ++
  "AZURE_AD_CLIENT_ID=\n" ++
  "AZURE_AD_CLIENT_SECRET=\n" ++
  "AZURE_AD_TENANT_ID=\n" ++
  "\n" ++
  "# Google OAuth (if using Google authentication)\n" ++
  "GOOGLE_CLIENT_ID=\n" ++
  "GOOGLE_CLIENT_SECRET=\n" ++
  "\n" ++
  "# Storage Configuration\n" ++
  "STORAGE_PROVIDER=local\n" ++
  "LOCAL_UPLOAD_DIR=./uploads\n" ++
  "\n" ++
  "# Other Configuration\n" ++
  "NODE_ENV=production\n" ++
  "PORT=3000\n"

/-- The rewritten `lib/config.ts` text written by `update_config_ts`
(lines 94-129). -/
def config_content : String :=
  "export const config = \x7b\n" ++
  "  auth: \x7b\n" ++
  "    providers: \x7b\n" ++
  "      google: \x7b\n" ++
  "        clientId: process.env.GOOGLE_CLIENT_ID || '',\n" ++
  "        clientSecret: process.env.GOOGLE_CLIENT_SECRET || '',\n" ++
  "      \x7d,\n" ++
  "      azure: \x7b\n" ++
  "        clientId: process.env.AZURE_AD_CLIENT_ID || '',\n" ++
  "        clientSecret: process.env.AZURE_AD_CLIENT_SECRET || '',\n" ++
  "        tenantId: process.env.AZURE_AD_TENANT_ID || '',\n" ++
  "      \x7d\n" ++
  "    \x7d\n" ++
  "  \x7d,\n" ++
  "  app: \x7b\n" ++
  "    name: process.env.PROJECT_NAME || 'vvg-app',\n" ++
  "    basePath: process.env.APP_BASE_PATH || `/$\x7bprocess.env.PROJECT_NAME || 'vvg-app'\x7d`,\n" ++
  "  \x7d,\n" ++
  "  storage: \x7b\n" ++
  "    provider: process.env.STORAGE_PROVIDER as 'local' | 's3' || 'local',\n" ++
  "    local: \x7b\n" ++
  "      uploadDir: process.env.LOCAL_UPLOAD_DIR || './uploads',\n" ++
  "    \x7d,\n" ++
  "    s3: \x7b\n" ++
  "      bucket: process.env.S3_BUCKET_NAME || '',\n" ++
  "      region: process.env.AWS_REGION || 'us-east-1',\n" ++
  "      accessKeyId: process.env.AWS_ACCESS_KEY_ID || '',\n" ++
  "      secretAccessKey: process.env.AWS_SECRET_ACCESS_KEY || '',\n" ++
  "      folderPrefix: process.env.S3_FOLDER_PREFIX || `$\x7bprocess.env.PROJECT_NAME || 'vvg-app'\x7d/`,\n" ++
  "    \x7d\n" ++
  "  \x7d,\n" ++
  "  database: \x7b\n" ++
  "    url: process.env.DATABASE_URL || '',\n" ++
  "  \x7d\n" ++
  "\x7d;\n"

/-- The `setup-project.sh` text written by `create_setup_script`
(lines 143-197), after Python's escape processing of the source literal. -/
def setup_content : String :=
  "#!/bin/bash\n" ++
  "\n" ++
  "# Setup script for new projects using this template\n" ++
  "\n" ++
  "echo \"VVG Template Setup\"\n" ++
  "echo \"==================\"\n" ++
  "\n" ++
  "# Get project name from user\n" ++
  "read -p \"Enter your project name (lowercase, no spaces): \" PROJECT_NAME\n" ++
  "\n" ++
  "# Validate project name\n" ++
  "if [[ ! \"$PROJECT_NAME\" =~ ^[a-z0-9-]+$ ]]; then\n" ++
  "    echo \"Error: Project name must be lowercase letters, numbers, and hyphens only\"\n" ++
  "    exit 1\n" ++
  "fi\n" ++
  "\n" ++
  "echo \"Setting up project: $PROJECT_NAME\"\n" ++
  "\n" ++
  "# Copy .env.template to .env\n" ++
  "cp .env.template .env\n" ++
  "\n" ++
  "# Update .env with project name\n" ++
  "if [[ \"$OSTYPE\" == \"darwin\"* ]]; then\n" ++
  "    # macOS\n" ++
  "    sed -i '' \"s|PROJECT_NAME=your-project-name|PROJECT_NAME=$PROJECT_NAME|g\" .env\n" ++
  "    sed -i '' \"s|APP_BASE_PATH=/your-project-name|APP_BASE_PATH=/$PROJECT_NAME|g\" .env\n" ++
  "else\n" ++
  "    # Linux\n" ++
  "    sed -i \"s|PROJECT_NAME=your-project-name|PROJECT_NAME=$PROJECT_NAME|g\" .env\n" ++
  "    sed -i \"s|APP_BASE_PATH=/your-project-name|APP_BASE_PATH=/$PROJECT_NAME|g\" .env\n" ++
  "fi\n" ++
  "\n" ++
  "# Update package.json name\n" ++
  "if [[ \"$OSTYPE\" == \"darwin\"* ]]; then\n" ++
  "    sed -i '' \"s|\\\"name\\\": \\\"[^\"]*\\\"|\"name\": \\\"$PROJECT_NAME\\\"|g\" package.json\n" ++
  "else\n" ++
  "    sed -i \"s|\\\"name\\\": \\\"[^\"]*\\\"|\"name\": \\\"$PROJECT_NAME\\\"|g\" package.json\n" ++
  "fi\n" ++
  "\n" ++
  "echo \"\"\n" ++
  "echo \"Setup complete! Next steps:\"\n" ++
  "echo \"1. Update the remaining values in .env\"\n" ++
  "echo \"2. Run 'npm install' to install dependencies\"\n" ++
  "echo \"3. Run 'npm run dev' to start development\"\n" ++
  "echo \"\"\n" ++
  "echo \"For production deployment:\"\n" ++
  "echo \"- Update nginx configs with your domain\"\n" ++
  "echo \"- Update deployment configs with your server details\"\n" ++
  "echo \"- See DEPLOYMENT.md for full instructions\"\n"

/-- `update_config_ts()` (lines 92-139) on the file store: if `lib/config.ts`
exists and no `lib/config.ts.original` backup exists yet, the existing file
is renamed to the backup name and the fixed new content is written under the
original name; in every other case nothing happens. -/
def update_config_ts (s : FileStore) : FileStore :=
  match lookupFile s "lib/config.ts" with
  | none => s
  | some c =>
    match lookupFile s "lib/config.ts.original" with
    | some _ => s
    | none =>
      writeFile (writeFile s "lib/config.ts.original" c) "lib/config.ts"
        config_content

/-- `main()` (lines 199-270) on the file store, in source order: write
`.env.template` (always overwriting), run `update_config_ts`, run the
walk-and-substitute phase over every file, then write `setup-project.sh`.
Returns the final store and the `updated_count` tally. -/
def mainRun (s : FileStore) : FileStore × Nat :=
  let s1 := writeFile s ".env.template" env_template
  let s2 := update_config_ts s1
  let r := processAll s2
  (writeFile r.1 "setup-project.sh" setup_content, r.2)

/-- The walk loop of `main` with explicit per-file I/O outcomes: each file
contributes its `replace_in_file` result to the updated-file tally and its
printed lines to the transcript, and the loop always continues with the
remaining files. -/
def processWithOutcomes (m : List (String × String)) :
    List (String × Except String String × Except String Unit) → Nat × List String
  | [] => (0, [])
  | (p, rr, wr) :: rest =>
    let r := replace_in_file p rr wr m
    let t := processWithOutcomes m rest
    ((if r.1 then 1 else 0) + t.1, r.2.2 ++ t.2)

mutual
/-- A directory of the walked tree: its name, its regular files (name and
content), and its subdirectories. -/
inductive Dir : Type where
  | node (dname : String) (files : List (String × String)) (subdirs : DirList)
/-- A list of subdirectories (a separate inductive so that the mutual
recursions below are structural). -/
inductive DirList : Type where
  | dnil : DirList
  | dcons (d : Dir) (ds : DirList) : DirList
end

/-- The name of a directory. -/
def Dir.name : Dir → String
  | .node n _ _ => n

/-- Joining a walk prefix with a child name, mirroring `Path(root) / file`
after `pathlib`'s removal of the leading `.` component: at the root the
child name stands alone. -/
def childPath (cur n : String) : String :=
  if cur = "" then n else cur ++ "/" ++ n

/-- The directory names pruned in-place from `dirs` during the walk
(line 249). -/
def walk_prune_names : List String :=
  ["node_modules", ".git", ".next", "dist", "build"]

mutual
/-- `os.walk` (lines 247-252) from a directory: visit the files of the
current directory, then descend into exactly those subdirectories whose
name survives the in-place pruning of line 249.  Returns the visited files
as (path, content) pairs. -/
def walkDir (prune : List String) (cur : String) : Dir → List (String × String)
  | .node _ files subs =>
    files.map (fun f => (childPath cur f.1, f.2)) ++ walkSubdirs prune cur subs
/-- The subdirectory half of `walkDir`. -/
def walkSubdirs (prune : List String) (cur : String) : DirList → List (String × String)
  | .dnil => []
  | .dcons d ds =>
    (if prune.contains d.name then [] else walkDir prune (childPath cur d.name) d)
      ++ walkSubdirs prune cur ds
end

mutual
/-- Remove every subdirectory whose name is in `prune`, at every depth
(the root directory itself is kept). -/
def pruneTree (prune : List String) : Dir → Dir
  | .node n files subs => .node n files (pruneSubdirs prune subs)
/-- The subdirectory half of `pruneTree`. -/
def pruneSubdirs (prune : List String) : DirList → DirList
  | .dnil => .dnil
  | .dcons d ds =>
    if prune.contains d.name then pruneSubdirs prune ds
    else .dcons (pruneTree prune d) (pruneSubdirs prune ds)
end

mutual
/-- `true` iff no directory strictly below the root has a name in `prune`. -/
def dirsOk (prune : List String) : Dir → Bool
  | .node _ _ subs => dirsOkList prune subs
/-- The subdirectory half of `dirsOk`: also checks the listed directories
themselves. -/
def dirsOkList (prune : List String) : DirList → Bool
  | .dnil => true
  | .dcons d ds => (!prune.contains d.name) && dirsOk prune d && dirsOkList prune ds
end

/-- A character allowed by the generated setup script's project-name check:
the bash test `[[ "$PROJECT_NAME" =~ ^[a-z0-9-]+$ ]]` admits lowercase
letters, digits and hyphens. -/
def nameCharOk (c : Char) : Bool :=
  ('a' ≤ c && c ≤ 'z') || ('0' ≤ c && c ≤ '9') || c == '-'

/-- The anchored pattern `^[a-z0-9-]+$` of the generated setup script:
a non-empty string all of whose characters are admitted. -/
def matchesNamePattern (s : String) : Bool :=
  !s.data.isEmpty && s.data.all nameCharOk

/-- The files the generated setup script touches: the environment template
it copies from and the `.env` file it creates. -/
structure ScriptFS where
  envTemplate : Option String
  env : Option String
deriving DecidableEq

/-- The generated `setup-project.sh`, run on a project name read from the
operator: if the name fails the `^[a-z0-9-]+$` check the script prints an
error and exits with status 1 before any file action; otherwise it copies
`.env.template` to `.env` and substitutes the project name into the two
placeholder lines (the two literal `sed` expressions), then finishes with
status 0.  The `package.json` rewrite is outside the modelled state (no
claim depends on it). -/
def runSetupScript (pn : String) (fs : ScriptFS) : Nat × ScriptFS :=
  if matchesNamePattern pn then
    (0, { fs with env := fs.envTemplate.map (fun t =>
      pyReplace (pyReplace t "PROJECT_NAME=your-project-name" ("PROJECT_NAME=" ++ pn))
        "APP_BASE_PATH=/your-project-name" ("APP_BASE_PATH=/" ++ pn)) })
  else (1, fs)

/-- `containsSub` decides substring containment (`List.IsInfix`). -/
theorem containsSub_iff (pat s : List Char) : containsSub pat s = true ↔ pat <:+: s := by
  induction s with
  | nil => simp [containsSub, List.isEmpty_iff, List.infix_nil]
  | cons c rest ih =>
    simp [containsSub, List.infix_cons_iff, List.isPrefixOf_iff_prefix, ih,
      Bool.or_eq_true]

/-- The `should_skip` loop returns `true` exactly when some pattern of the
list is a substring of the path string. -/
theorem should_skipWith_iff (l : List String) (p : String) :
    should_skipWith l p = true ↔ ∃ pat ∈ l, pat.data <:+: p.data := by
  induction l with
  | nil => simp [should_skipWith]
  | cons q rest ih =>
    rw [should_skipWith]
    by_cases h : containsSub q.data p.data = true
    · rw [if_pos h]
      exact iff_of_true rfl ⟨q, List.mem_cons_self q rest, (containsSub_iff _ _).mp h⟩
    · rw [if_neg h, ih]
      constructor
      · rintro ⟨pat, hm, hi⟩
        exact ⟨pat, List.mem_cons_of_mem _ hm, hi⟩
      · rintro ⟨pat, hm, hi⟩
        rcases List.mem_cons.mp hm with rfl | hm'
        · exact absurd ((containsSub_iff _ _).mpr hi) h
        · exact ⟨pat, hm', hi⟩

/-- A pattern that does not occur in `s` leaves `s` unchanged under the
replacement scan, for any fuel. -/
theorem pyReplaceFuel_no_occ (old new : List Char) (f : Nat) :
    ∀ s : List Char, ¬ old <:+: s → pyReplaceFuel old new f s = s := by
  induction f with
  | zero => intro s _; rfl
  | succ f ih =>
    intro s h
    match s with
    | [] => rfl
    | c :: rest =>
      have hp : old.isPrefixOf (c :: rest) = false := by
        rw [Bool.eq_false_iff]
        intro hc
        exact h (List.isPrefixOf_iff_prefix.mp hc).isInfix
      simp only [pyReplaceFuel, hp, Bool.false_and, Bool.false_eq_true, if_false]
      rw [ih rest (fun hi => h (List.infix_cons hi))]

/-- Python `replace` with a pattern that does not occur is the identity. -/
theorem pyReplace_no_occ (s old new : String) (h : ¬ old.data <:+: s.data) :
    pyReplace s old new = s := by
  have hne : old.data.isEmpty = false := by
    rw [Bool.eq_false_iff]
    intro hc
    rw [List.isEmpty_iff] at hc
    exact h (hc ▸ List.nil_infix)
  simp only [pyReplace, hne, Bool.false_eq_true, if_false]
  rw [pyReplaceFuel_no_occ old.data new.data _ s.data h]

/-- A content containing no key of the map is a fixed point of the whole
sequential replacement pass. -/
theorem applyMap_no_occ (m : List (String × String)) (c : String)
    (h : ∀ kv ∈ m, ¬ kv.1.data <:+: c.data) : applyMap m c = c := by
  induction m with
  | nil => rfl
  | cons kv rest ih =>
    have h1 : pyReplace c kv.1 kv.2 = c :=
      pyReplace_no_occ _ _ _ (h kv (List.mem_cons_self kv rest))
    simp only [applyMap, List.foldl_cons, h1]
    exact ih (fun kv' hm => h kv' (List.mem_cons_of_mem _ hm))

/-- An occurrence of a non-empty `l` inside `a ++ b` either uses a character
of `a` or lies entirely inside `b`. -/
theorem infix_append_cases {l a b : List Char} (hne : l ≠ []) (h : l <:+: a ++ b) :
    (∃ c ∈ l, c ∈ a) ∨ l <:+: b := by
  induction a with
  | nil => right; simpa using h
  | cons x a ih =>
    rw [List.cons_append, List.infix_cons_iff] at h
    rcases h with hp | hi
    · left
      match l, hne with
      | y :: l', _ =>
        have hyx : y = x := (List.cons_prefix_cons.mp hp).1
        exact ⟨y, List.mem_cons_self y l', by simp [hyx]⟩
    · rcases ih hi with ⟨c, hc, hca⟩ | hb
      · exact Or.inl ⟨c, hc, List.mem_cons_of_mem _ hca⟩
      · exact Or.inr hb

/-- If the characters of `new` are disjoint from those of `old`, then any
non-empty suffix fragment of `old` that is a prefix of the replacement
output was already a prefix of the input. -/
theorem pyReplaceFuel_prefix_track (old new : List Char) (hnew : new ≠ [])
    (hdisj : ∀ c ∈ new, c ∉ old) (f : Nat) :
    ∀ s t : List Char, t ≠ [] → t <:+ old →
      t <+: pyReplaceFuel old new f s → t <+: s := by
  induction f with
  | zero => intro s t _ _ hp; exact hp
  | succ f ih =>
    intro s t htne hts hp
    match s with
    | [] =>
      rcases List.prefix_nil.mp hp with rfl
      exact absurd rfl htne
    | c :: rest =>
      by_cases hpre : (old.isPrefixOf (c :: rest) && !old.isEmpty) = true
      · rw [show pyReplaceFuel old new (f + 1) (c :: rest)
            = new ++ pyReplaceFuel old new f ((c :: rest).drop old.length) by
              simp only [pyReplaceFuel, hpre, if_true]] at hp
        match t, htne with
        | y :: t', _ =>
          match new, hnew with
          | z :: new', _ =>
            have hyz : y = z := (List.cons_prefix_cons.mp hp).1
            have hyo : y ∈ old := hts.subset (List.mem_cons_self y t')
            have hyn : y ∈ z :: new' := by simp [hyz]
            exact absurd hyo (hdisj y hyn)
      · rw [show pyReplaceFuel old new (f + 1) (c :: rest)
            = c :: pyReplaceFuel old new f rest by
              simp only [pyReplaceFuel, hpre, Bool.false_eq_true, if_false]] at hp
        match t, htne with
        | y :: t', _ =>
          obtain ⟨hyc, h2⟩ := List.cons_prefix_cons.mp hp
          match t' with
          | [] => simp [hyc]
          | w :: t'' =>
            have hts' : (w :: t'') <:+ old := (List.suffix_cons y (w :: t'')).trans hts
            have := ih rest (w :: t'') (by simp) hts' h2
            exact List.cons_prefix_cons.mpr ⟨hyc, this⟩

/-- With `new`'s characters disjoint from `old`'s, the replacement output
contains no occurrence of `old` at all. -/
theorem pyReplaceFuel_not_infix (old new : List Char) (hold : old ≠ [])
    (hnew : new ≠ []) (hdisj : ∀ c ∈ new, c ∉ old) (f : Nat) :
    ∀ s : List Char, s.length ≤ f → ¬ old <:+: pyReplaceFuel old new f s := by
  induction f with
  | zero =>
    intro s hs h
    rw [List.length_eq_zero.mp (Nat.le_zero.mp hs)] at h
    exact hold (List.infix_nil.mp h)
  | succ f ih =>
    intro s hs h
    match s with
    | [] => exact hold (List.infix_nil.mp h)
    | c :: rest =>
      by_cases hpre : (old.isPrefixOf (c :: rest) && !old.isEmpty) = true
      · rw [show pyReplaceFuel old new (f + 1) (c :: rest)
            = new ++ pyReplaceFuel old new f ((c :: rest).drop old.length) by
              simp only [pyReplaceFuel, hpre, if_true]] at h
        rcases infix_append_cases hold h with ⟨ch, hcl, hca⟩ | hT
        · exact hdisj ch hca hcl
        · have hlen : ((c :: rest).drop old.length).length ≤ f := by
            have h1 : 1 ≤ old.length := by
              match old, hold with
              | _ :: _, _ => simp [Nat.succ_le_succ, Nat.zero_le]
            rw [List.length_drop]
            omega
          exact ih _ hlen hT
      · rw [show pyReplaceFuel old new (f + 1) (c :: rest)
            = c :: pyReplaceFuel old new f rest by
              simp only [pyReplaceFuel, hpre, Bool.false_eq_true, if_false]] at h
        rcases List.infix_cons_iff.mp h with hp | hi
        · have hfull : old <+: c :: rest := by
            have heq : (c : Char) :: pyReplaceFuel old new f rest
                = pyReplaceFuel old new (f + 1) (c :: rest) := by
              simp only [pyReplaceFuel, hpre, Bool.false_eq_true, if_false]
            rw [heq] at hp
            exact pyReplaceFuel_prefix_track old new hnew hdisj (f + 1)
              (c :: rest) old hold List.suffix_rfl hp
          have hie : old.isEmpty = false := by
            rw [Bool.eq_false_iff]
            intro hc
            exact hold (List.isEmpty_iff.mp hc)
          have : (old.isPrefixOf (c :: rest) && !old.isEmpty) = true := by
            rw [List.isPrefixOf_iff_prefix.mpr hfull, hie]
            rfl
          exact hpre this
        · have hlen : rest.length ≤ f := by
            simpa using Nat.le_of_succ_le_succ hs
          exact ih rest hlen hi

/-- `pyReplace` with disjoint replacement characters removes every
occurrence of the pattern. -/
theorem pyReplace_not_infix (s old new : String) (hold : old.data ≠ [])
    (hnew : new.data ≠ []) (hdisj : ∀ c ∈ new.data, c ∉ old.data) :
    ¬ old.data <:+: (pyReplace s old new).data := by
  have hie : old.data.isEmpty = false := by
    rw [Bool.eq_false_iff]
    intro hc
    exact hold (List.isEmpty_iff.mp hc)
  simp only [pyReplace, hie, Bool.false_eq_true, if_false]
  exact pyReplaceFuel_not_infix old.data new.data hold hnew hdisj _ _ Nat.le.refl

/-- Reading back the path just written yields the written content. -/
theorem lookupFile_writeFile_self (s : FileStore) (p c : String) :
    lookupFile (writeFile s p c) p = some c := by
  induction s with
  | nil => simp [writeFile, lookupFile, List.find?]
  | cons e rest ih =>
    match e with
    | (q, d) =>
      by_cases h : (q == p) = true
      · simp [writeFile, h, lookupFile, List.find?]
      · simp only [writeFile, h, Bool.false_eq_true, if_false]
        simpa [lookupFile, List.find?, h] using ih

/-- Writing one path leaves every other path's content unchanged. -/
theorem lookupFile_writeFile_ne (s : FileStore) (p q c : String) (h : q ≠ p) :
    lookupFile (writeFile s p c) q = lookupFile s q := by
  have hpq : (p == q) = false := beq_eq_false_iff_ne.mpr (fun hc => h hc.symm)
  induction s with
  | nil => simp [writeFile, lookupFile, List.find?, hpq]
  | cons e rest ih =>
    match e with
    | (r, d) =>
      by_cases hr : (r == p) = true
      · have hrq : (p == q) = false := by
          simp only [beq_eq_false_iff_ne]
          exact fun hc => h hc.symm
        have hrq' : (r == q) = false := by
          simp only [beq_eq_false_iff_ne]
          have : r = p := by simpa using hr
          subst this
          exact fun hc => h hc.symm
        simp [writeFile, hr, lookupFile, List.find?, hrq, hrq']
      · simp only [writeFile, hr, Bool.false_eq_true, if_false]
        by_cases hq : (r == q) = true
        · simp [lookupFile, List.find?, hq]
        · simpa [lookupFile, List.find?, hq] using ih

/-- A file whose (lowercased) suffix has no entry in the dispatch table
passes through the walk loop unchanged and uncounted. -/
theorem processFile_handler_none (p c : String)
    (h : lookupHandler (extOf p) = none) : processFile p c = (c, false) := by
  unfold processFile
  by_cases hs : should_skip p = true
  · rw [if_pos hs]
  · rw [if_neg hs, h]

/-- A skipped path passes through the walk loop unchanged and uncounted. -/
theorem processFile_skip (p c : String) (h : should_skip p = true) :
    processFile p c = (c, false) := by
  unfold processFile
  rw [if_pos h]

/-- A file none of whose map keys occur in its content passes through the
walk loop unchanged and uncounted, and `replace_in_file` neither writes nor
reports it. -/
theorem replace_in_file_no_occ (p c : String) (w : Except String Unit)
    (m : List (String × String)) (h : ∀ kv ∈ m, ¬ kv.1.data <:+: c.data) :
    replace_in_file p (Except.ok c) w m = (false, none, []) := by
  simp [replace_in_file, applyMap_no_occ m c h]

/-- `processFile` in terms of `replace_in_file_no_occ`. -/
theorem processFile_no_occ (p c : String) (m : List (String × String))
    (hm : lookupHandler (extOf p) = some m)
    (h : ∀ kv ∈ m, ¬ kv.1.data <:+: c.data) : processFile p c = (c, false) := by
  unfold processFile
  by_cases hs : should_skip p = true
  · rw [if_pos hs]
  · rw [if_neg hs, hm]
    simp [replace_in_file_no_occ p c (Except.ok ()) m h]

/-- The walk phase maps each store entry through `processFile`: reading any
path afterwards returns its processed content. -/
theorem lookupFile_processAll (s : FileStore) (p : String) :
    lookupFile (processAll s).1 p
      = (lookupFile s p).map (fun c => (processFile p c).1) := by
  induction s with
  | nil => simp [processAll, lookupFile, List.find?]
  | cons e rest ih =>
    match e with
    | (q, d) =>
      by_cases h : (q == p) = true
      · have : q = p := by simpa using h
        subst this
        simp [processAll, lookupFile, List.find?, h]
      · simpa [processAll, lookupFile, List.find?, h] using ih

/-- A file left unchanged by `processFile` passes through the walk phase
verbatim and contributes nothing to the updated-file counter. -/
theorem processAll_unchanged_cons (p c : String) (rest : FileStore)
    (h : processFile p c = (c, false)) :
    processAll ((p, c) :: rest)
      = ((p, c) :: (processAll rest).1, (processAll rest).2) := by
  simp [processAll, h]

/-- Claim C7: for every content string and substitution map, if the output
of one Content Substitution pass contains no occurrence of any key of the
map, then a second pass with the same map returns that output unchanged
(the first-pass output is a fixed point). -/
theorem c7_second_pass_fixed_point (m : List (String × String)) (c : String)
    (h : ∀ kv ∈ m, ¬ kv.1.data <:+: (applyMap m c).data) :
    applyMap m (applyMap m c) = applyMap m c :=
  applyMap_no_occ m (applyMap m c) h

/-- Witness for C7 at a concrete map and content. -/
theorem c7_second_pass_fixed_point_witness :
    applyMap [("a", "B")] (applyMap [("a", "B")] "aba") = applyMap [("a", "B")] "aba" :=
  c7_second_pass_fixed_point [("a", "B")] "aba" (by decide)

/-- Claim C9: on every input string, the seven-entry `replacements` map
applied in its defined order produces the same output as its three-entry
sub-map `replacements_core`: the bare key `nda-analyzer` is applied first,
its replacement value shares no character with the key, so the four later
keys that contain `nda-analyzer` as a substring can never match and are
identity steps. -/
theorem c9_replacements_refine_core (s : String) :
    applyMap replacements s = applyMap replacements_core s := by
  have hni : ¬ ("nda-analyzer".data
      <:+: (pyReplace s "nda-analyzer" "$\x7bPROJECT_NAME\x7d").data) :=
    pyReplace_not_infix s _ _ (by decide) (by decide) (by decide)
  have nok : ∀ k : String, "nda-analyzer".data <:+: k.data → ∀ v : String,
      pyReplace (pyReplace s "nda-analyzer" "$\x7bPROJECT_NAME\x7d") k v
        = pyReplace s "nda-analyzer" "$\x7bPROJECT_NAME\x7d" := by
    intro k hk v
    exact pyReplace_no_occ _ _ _ (fun hc => hni (hk.trans hc))
  simp only [applyMap, replacements, replacements_core, List.foldl_cons,
    List.foldl_nil]
  rw [nok "/nda-analyzer" (by decide) "/$\x7bPROJECT_NAME\x7d",
    nok "nda-analyzer/" (by decide) "$\x7bPROJECT_NAME\x7d/",
    nok "'nda-analyzer'" (by decide) "'$\x7bPROJECT_NAME\x7d'",
    nok "\"nda-analyzer\"" (by decide) "\"$\x7bPROJECT_NAME\x7d\""]

/-- Claim C3: the Path Filter returns true iff some pattern of the Skip
Pattern Set is a substring of the path's string form; it short-circuits on
the first matching pattern (a hit at the head decides the result regardless
of the remaining patterns), and the boolean result is invariant under
permutation of the pattern list. -/
theorem c3_should_skip_substring_or (p : String) :
    (should_skip p = true ↔ ∃ pat ∈ SKIP_PATTERNS, pat.data <:+: p.data)
    ∧ (∀ (pat : String) (rest : List String), pat.data <:+: p.data →
        should_skipWith (pat :: rest) p = true)
    ∧ (∀ l₁ l₂ : List String, l₁.Perm l₂ →
        should_skipWith l₁ p = should_skipWith l₂ p) := by
  refine ⟨should_skipWith_iff _ _, ?_, ?_⟩
  · intro pat rest h
    rw [should_skipWith, if_pos ((containsSub_iff _ _).mpr h)]
  · intro l₁ l₂ hperm
    by_cases hb : should_skipWith l₁ p = true
    · rcases (should_skipWith_iff l₁ p).mp hb with ⟨pat, hm, hi⟩
      rw [hb, ((should_skipWith_iff l₂ p).mpr ⟨pat, hperm.mem_iff.mp hm, hi⟩)]
    · have hb₂ : ¬ should_skipWith l₂ p = true := by
        intro hc
        rcases (should_skipWith_iff l₂ p).mp hc with ⟨pat, hm, hi⟩
        exact hb ((should_skipWith_iff l₁ p).mpr ⟨pat, hperm.mem_iff.mpr hm, hi⟩)
      rw [Bool.eq_false_iff.mpr hb, Bool.eq_false_iff.mpr hb₂]

/-- Witness for C3: a head hit short-circuits, and a transposed pattern
list gives the same verdict. -/
theorem c3_should_skip_substring_or_witness :
    should_skipWith ["dist", "zz"] "a/dist/b" = true
    ∧ should_skipWith ["node_modules", ".git"] "x"
        = should_skipWith [".git", "node_modules"] "x" :=
  ⟨(c3_should_skip_substring_or "a/dist/b").2.1 "dist" ["zz"] (by decide),
   (c3_should_skip_substring_or "x").2.2 ["node_modules", ".git"]
     [".git", "node_modules"] (List.Perm.swap ".git" "node_modules" [])⟩

/-- Claim C10: the skip pattern `*.original` is matched as a literal
substring, never as a glob — the filter fires on it exactly when the
literal characters `*.original` occur in the path — so the backup path
`lib/config.ts.original` is not excluded by the Path Filter; it is left
unprocessed only because the `.original` extension has no entry in the
dispatch table. -/
theorem c10_original_pattern_is_literal :
    (∀ p : String,
       should_skipWith ["*.original"] p = containsSub "*.original".data p.data)
    ∧ should_skip "lib/config.ts.original" = false
    ∧ lookupHandler (extOf "lib/config.ts.original") = none
    ∧ (∀ c : String, processFile "lib/config.ts.original" c = (c, false)) := by
  refine ⟨?_, by decide, by decide, ?_⟩
  · intro p
    rw [should_skipWith]
    by_cases h : containsSub "*.original".data p.data = true
    · rw [if_pos h, h]
    · rw [if_neg h, should_skipWith, Bool.eq_false_iff.mpr h]
  · intro c
    exact processFile_handler_none _ _ (by decide)

/-- Claim C2: the Config Module Generator creates the backup at most once.
If the backup already exists the run performs no action at all; if the
config file is absent nothing happens either; and on the run that finds a
config file and no backup, the config content is moved to the backup name,
the fixed new content is written under the original name, and a repeated
run is then a no-op — so after the backup's first creation no run ever
alters the backup file's content. -/
theorem c2_backup_write_once (s : FileStore) :
    (∀ b, lookupFile s "lib/config.ts.original" = some b → update_config_ts s = s)
    ∧ (lookupFile s "lib/config.ts" = none → update_config_ts s = s)
    ∧ (∀ c, lookupFile s "lib/config.ts" = some c →
        lookupFile s "lib/config.ts.original" = none →
          lookupFile (update_config_ts s) "lib/config.ts.original" = some c
          ∧ lookupFile (update_config_ts s) "lib/config.ts" = some config_content
          ∧ update_config_ts (update_config_ts s) = update_config_ts s) := by
  refine ⟨?_, ?_, ?_⟩
  · intro b hb
    unfold update_config_ts
    cases hc : lookupFile s "lib/config.ts" with
    | none => rfl
    | some c => rw [hb]
  · intro h
    unfold update_config_ts
    rw [h]
  · intro c hc hb
    have hwrites : update_config_ts s
        = writeFile (writeFile s "lib/config.ts.original" c) "lib/config.ts"
            config_content := by
      unfold update_config_ts
      rw [hc, hb]
    have h1 : lookupFile (update_config_ts s) "lib/config.ts.original" = some c := by
      rw [hwrites, lookupFile_writeFile_ne _ _ _ _ (by decide),
        lookupFile_writeFile_self]
    have h2 : lookupFile (update_config_ts s) "lib/config.ts"
        = some config_content := by
      rw [hwrites, lookupFile_writeFile_self]
    refine ⟨h1, h2, ?_⟩
    conv_lhs => rw [update_config_ts, h2, h1]

/-- Witness for C2: a store that already has a backup is untouched, and a
store with only the config file gets its content moved to the backup. -/
theorem c2_backup_write_once_witness :
    update_config_ts [("lib/config.ts", "A"), ("lib/config.ts.original", "B")]
      = [("lib/config.ts", "A"), ("lib/config.ts.original", "B")]
    ∧ lookupFile (update_config_ts [("lib/config.ts", "A")])
        "lib/config.ts.original" = some "A" :=
  ⟨(c2_backup_write_once _).1 "B" (by decide),
   ((c2_backup_write_once _).2.2 "A" (by decide) (by decide)).1⟩

/-- Claim C6: a read/decoding error in `replace_in_file` is caught inside
the per-file handler — the function prints exactly the diagnostic line
containing the path and the message and returns false (no write, no update)
— a write error likewise never lets the file count as updated, and the walk
loop continues with the remaining files, their tally and transcript
unaffected by the failed file. -/
theorem c6_per_file_errors_nonfatal (p e c : String) (w : Except String Unit)
    (m : List (String × String))
    (rest : List (String × Except String String × Except String Unit)) :
    replace_in_file p (Except.error e) w m = (false, none, [errLine p e])
    ∧ (replace_in_file p (Except.ok c) (Except.error e) m).1 = false
    ∧ processWithOutcomes m ((p, Except.error e, w) :: rest)
        = ((processWithOutcomes m rest).1,
           errLine p e :: (processWithOutcomes m rest).2) := by
  refine ⟨rfl, ?_, ?_⟩
  · unfold replace_in_file
    by_cases h : applyMap m c = c
    · simp [h]
    · simp [h]
  · simp [processWithOutcomes, replace_in_file]

set_option maxRecDepth 40000 in
/-- Claim C8: the generated setup script, run with the input project name
`My Project!` (which fails the `^[a-z0-9-]+$` pattern), exits with status 1
and performs none of its subsequent file actions — in particular no `.env`
file is created from the template. -/
theorem c8_setup_rejects_bad_name :
    matchesNamePattern "My Project!" = false
    ∧ runSetupScript "My Project!" ⟨some env_template, none⟩
        = (1, ⟨some env_template, none⟩)
    ∧ (runSetupScript "My Project!" ⟨some env_template, none⟩).2.env = none :=
  ⟨by decide, by decide, by decide⟩

/-- Claim C1: a run over a tree whose only file is `app.ts` with content
`"nda-analyzer"` (quotes included) rewrites that occurrence to
`"${PROJECT_NAME}"` by the `.ts` map applied in map order, writes the file
back in place, and ends with the updated-file counter equal to 1; the walk
of the corresponding one-file directory tree visits exactly that file. -/
theorem c1_end_to_end_run :
    applyMap replacements "\"nda-analyzer\"" = "\"$\x7bPROJECT_NAME\x7d\""
    ∧ lookupFile (mainRun [("app.ts", "\"nda-analyzer\"")]).1 "app.ts"
        = some "\"$\x7bPROJECT_NAME\x7d\""
    ∧ (mainRun [("app.ts", "\"nda-analyzer\"")]).2 = 1
    ∧ walkDir walk_prune_names ""
        (Dir.node "." [("app.ts", "\"nda-analyzer\"")] DirList.dnil)
        = [("app.ts", "\"nda-analyzer\"")] :=
  ⟨by decide, by decide, by decide, by decide⟩

/-- `pruneTree` keeps the root directory's own name. -/
theorem pruneTree_name (prune : List String) :
    ∀ d : Dir, (pruneTree prune d).name = d.name
  | .node _ _ _ => rfl

mutual
/-- Walking with in-place pruning equals walking — with no pruning at all —
the tree from which every pruned-name subtree has been removed: pruned
directories are never descended into, so no file nested at any depth inside
them is ever visited. -/
theorem walkDir_eq_walk_pruneTree (prune : List String) :
    ∀ (cur : String) (t : Dir),
      walkDir prune cur t = walkDir [] cur (pruneTree prune t)
  | cur, .node _ files subs => by
    simp only [walkDir, pruneTree]
    rw [walkSubdirs_eq_walk_pruneSubdirs prune cur subs]
/-- Subdirectory half of `walkDir_eq_walk_pruneTree`. -/
theorem walkSubdirs_eq_walk_pruneSubdirs (prune : List String) :
    ∀ (cur : String) (ds : DirList),
      walkSubdirs prune cur ds = walkSubdirs [] cur (pruneSubdirs prune ds)
  | _, .dnil => rfl
  | cur, .dcons d ds => by
    by_cases h : prune.contains d.name = true
    · simp only [walkSubdirs, pruneSubdirs, h, if_true]
      rw [walkSubdirs_eq_walk_pruneSubdirs prune cur ds]
      simp
    · have hnil : ([] : List String).contains d.name = false := rfl
      simp only [walkSubdirs, pruneSubdirs, h, Bool.false_eq_true, if_false, hnil,
        pruneTree_name]
      rw [walkDir_eq_walk_pruneTree prune (childPath cur d.name) d,
        walkSubdirs_eq_walk_pruneSubdirs prune cur ds]
end

mutual
/-- After pruning, no directory strictly below the root bears a pruned
name. -/
theorem dirsOk_pruneTree (prune : List String) :
    ∀ t : Dir, dirsOk prune (pruneTree prune t) = true
  | .node _ _ subs => by
    simp only [pruneTree, dirsOk]
    exact dirsOkList_pruneSubdirs prune subs
/-- Subdirectory half of `dirsOk_pruneTree`. -/
theorem dirsOkList_pruneSubdirs (prune : List String) :
    ∀ ds : DirList, dirsOkList prune (pruneSubdirs prune ds) = true
  | .dnil => rfl
  | .dcons d ds => by
    by_cases h : prune.contains d.name = true
    · simp only [pruneSubdirs, h, if_true]
      exact dirsOkList_pruneSubdirs prune ds
    · simp only [pruneSubdirs, h, Bool.false_eq_true, if_false, dirsOkList,
        pruneTree_name, Bool.and_eq_true]
      exact ⟨⟨rfl, dirsOk_pruneTree prune d⟩, dirsOkList_pruneSubdirs prune ds⟩
end

/-- Claim C4: during the tree walk, directories named `node_modules`,
`.git`, `.next`, `dist` or `build` are pruned before descent — the walk
equals a walk of the tree with those subtrees removed, and the pruned tree
has no such directory below its root — and every path containing one of
those names as a substring is excluded from processing by the Path Filter
(so such a file, even if present, is never modified or counted). -/
theorem c4_pruned_dirs_never_visited (cur : String) (t : Dir) :
    walkDir walk_prune_names cur t
      = walkDir [] cur (pruneTree walk_prune_names t)
    ∧ dirsOk walk_prune_names (pruneTree walk_prune_names t) = true
    ∧ (∀ p c pat : String, pat ∈ walk_prune_names → pat.data <:+: p.data →
        should_skip p = true ∧ processFile p c = (c, false)) := by
  refine ⟨walkDir_eq_walk_pruneTree _ cur t, dirsOk_pruneTree _ t, ?_⟩
  intro p c pat hmem hinf
  have hsk : should_skip p = true := by
    show should_skipWith SKIP_PATTERNS p = true
    apply (should_skipWith_iff SKIP_PATTERNS p).mpr
    refine ⟨pat, ?_, hinf⟩
    fin_cases hmem <;> decide
  exact ⟨hsk, processFile_skip p c hsk⟩

/-- Witness for C4 at a concrete path containing `dist`. -/
theorem c4_pruned_dirs_never_visited_witness :
    should_skip "a/dist/b.ts" = true
    ∧ processFile "a/dist/b.ts" "x" = ("x", false) :=
  (c4_pruned_dirs_never_visited "" (Dir.node "." [] DirList.dnil)).2.2
    "a/dist/b.ts" "x" "dist" (by decide) (by decide)

set_option maxRecDepth 40000 in
/-- Counterexample to claim C5 as stated: a pre-existing `.env.template`
file, whose extension `.template` has no entry in the dispatch table, is
nonetheless rewritten by a run, because `create_env_template` always
overwrites that path before the walk. -/
theorem c5_counterexample_env_template :
    lookupHandler (extOf ".env.template") = none
    ∧ lookupFile (mainRun [(".env.template", "OLD")]).1 ".env.template"
        = some env_template
    ∧ env_template ≠ "OLD" :=
  ⟨by decide, by decide, by decide⟩

/-- Claim C5 (amended): except for the artifact paths the run itself writes
(`.env.template`, `setup-project.sh`, `lib/config.ts` and its backup
`lib/config.ts.original`), a run leaves every file whose extension is not a
key of the Extension Dispatch Table byte-identical; and for every file
whose extension is in the table but whose content contains none of the
mapped old substrings, the content is unchanged, the file is not written,
it is not reported as updated, and it does not increment the updated-file
counter. -/
theorem c5_frame_amended :
    (∀ (s : FileStore) (p : String),
       lookupHandler (extOf p) = none →
       p ≠ ".env.template" → p ≠ "setup-project.sh" →
       p ≠ "lib/config.ts" → p ≠ "lib/config.ts.original" →
       lookupFile (mainRun s).1 p = lookupFile s p)
    ∧ (∀ (p c : String) (w : Except String Unit) (m : List (String × String)),
        lookupHandler (extOf p) = some m →
        (∀ kv ∈ m, ¬ kv.1.data <:+: c.data) →
        replace_in_file p (Except.ok c) w m = (false, none, [])
        ∧ processFile p c = (c, false))
    ∧ (∀ (p c : String) (rest : FileStore), processFile p c = (c, false) →
        processAll ((p, c) :: rest)
          = ((p, c) :: (processAll rest).1, (processAll rest).2)) := by
  refine ⟨?_, ?_, ?_⟩
  · intro s p hnone h1 h2 h3 h4
    show lookupFile
        (writeFile
          (processAll (update_config_ts (writeFile s ".env.template" env_template))).1
          "setup-project.sh" setup_content) p
      = lookupFile s p
    rw [lookupFile_writeFile_ne _ _ _ _ h2, lookupFile_processAll]
    have hupd : lookupFile
        (update_config_ts (writeFile s ".env.template" env_template)) p
        = lookupFile s p := by
      have hb : lookupFile (writeFile s ".env.template" env_template) p
          = lookupFile s p := lookupFile_writeFile_ne _ _ _ _ h1
      unfold update_config_ts
      cases hc : lookupFile (writeFile s ".env.template" env_template)
          "lib/config.ts" with
      | none => exact hb
      | some c0 =>
        cases ho : lookupFile (writeFile s ".env.template" env_template)
            "lib/config.ts.original" with
        | some b0 => exact hb
        | none =>
          rw [lookupFile_writeFile_ne _ _ _ _ h3,
            lookupFile_writeFile_ne _ _ _ _ h4]
          exact hb
    rw [hupd]
    cases hx : lookupFile s p with
    | none => rfl
    | some c => simp [processFile_handler_none p c hnone]
  · intro p c w m hm hno
    exact ⟨replace_in_file_no_occ p c w m hno, processFile_no_occ p c m hm hno⟩
  · intro p c rest h
    exact processAll_unchanged_cons p c rest h

/-- Witness for the amended C5: a run preserves an out-of-table file, and a
`.ts` file without any mapped substring is neither rewritten nor counted. -/
theorem c5_frame_amended_witness :
    lookupFile (mainRun [("notes.xyz", "v")]).1 "notes.xyz"
        = lookupFile [("notes.xyz", "v")] "notes.xyz"
    ∧ replace_in_file "x.ts" (Except.ok "zzz") (Except.ok ()) replacements
        = (false, none, [])
    ∧ processFile "x.ts" "zzz" = ("zzz", false)
    ∧ processAll [("x.ts", "zzz")] = ([("x.ts", "zzz")], 0) := by
  have h1 := (c5_frame_amended).1 [("notes.xyz", "v")] "notes.xyz" (by decide)
    (by decide) (by decide) (by decide) (by decide)
  have h2 := (c5_frame_amended).2.1 "x.ts" "zzz" (Except.ok ()) replacements
    (by decide) (by decide)
  have h3 := (c5_frame_amended).2.2 "x.ts" "zzz" [] h2.2
  exact ⟨h1, h2.1, h2.2, by rw [h3]; rfl⟩
